import Mathlib

/-!
Shallow embedding of the trade-analysis service in `src/main.py`
(FastAPI rule evaluator for crypto-asset portfolios).

Numeric JSON fields are modelled as `Option ℚ` (absent field = `none`,
Python's `dict.get(k, d)` = `Option.getD`); string fields as
`Option String`.  Market data (a JSON object keyed by symbol) is an
association list looked up with `List.lookup`.  The Python dict
`asset_values` built by insertion/overwrite is modelled by `upsert`,
which, like a Python dict, keeps the position of the first insertion of
a key and overwrites its value.  A Python function that can raise
(`analyze_costs_and_slippage` divides by `tx_price`, which raises
`ZeroDivisionError` when the transaction price is 0) is embedded as
`Except Unit`.  Dispatched notifications are collected in a list, in
dispatch order; the formatted message strings are represented by the
structured `Message` values they are rendered from.
-/

namespace CriptoActivos

/-- One holding of the portfolio (`portafolio["holdings"]` entry). -/
structure Holding where
  activeSymbol : Option String
  quantity : Option ℚ
deriving Repr, DecidableEq

/-- One market-data entry (`marketData[symbol]`). -/
structure Ticker where
  price : Option ℚ
  best_ask : Option ℚ
  best_bid : Option ℚ
  price_percent_chg_24_h : Option ℚ
deriving Repr, DecidableEq

/-- The `transaction` object of the request. -/
structure Transaction where
  portafolioId : Option String
  activeSymbol : Option String
  type : Option String
  price : Option ℚ
  amount : Option ℚ
deriving Repr, DecidableEq

/-- The `portafolio` object of the request. -/
structure Portafolio where
  id : Option String
  cash : Option ℚ
  holdings : List Holding
deriving Repr, DecidableEq

/-- The `marketData` object: a JSON dict from symbol to ticker. -/
abbrev MarketData := List (String × Ticker)

/-- JSON-object lookup `d[k]` / `k in d` for string-keyed dicts. -/
def dictFind {β : Type} (s : String) : List (String × β) → Option β
  | [] => none
  | (k, v) :: tl => if k = s then some v else dictFind s tl

/-- `symbol in market_data` followed by `market_data[symbol]`, for a
possibly missing symbol (`None in d` is `False` in Python). -/
def mdFind (md : MarketData) (sym : Option String) : Option Ticker :=
  match sym with
  | none => none
  | some s => dictFind s md

/-- `SIMULATED_FEE_RATE = 0.005` (line 14). -/
def SIMULATED_FEE_RATE : ℚ := 5 / 1000

/-- `SLIPPAGE_TOLERANCE = 0.001` (line 15). -/
def SLIPPAGE_TOLERANCE : ℚ := 1 / 1000

/-- Structured form of the message strings interpolated in `main.py`;
each constructor carries exactly the data interpolated into the string. -/
inductive Message where
  | allIn (pct : ℚ) (symbol : Option String)
  | concentration (pct : ℚ) (symbol : String)
  | commissionInfo (symbol : Option String) (commission : ℚ)
  | slippage (txType : Option String) (symbol : Option String) (pct : ℚ)
  | fomo (symbol : Option String) (chg : ℚ)
  | panicSell (symbol : Option String) (chg : ℚ)
deriving Repr, DecidableEq

/-- One call to `send_feedback_to_nestjs(portafolio_id, msg, type)`. -/
structure Feedback where
  portafolioId : Option String
  message : Message
  ftype : String
deriving Repr, DecidableEq

def Message.isAllIn : Message → Bool
  | .allIn _ _ => true
  | _ => false

def Message.isConc : Message → Bool
  | .concentration _ _ => true
  | _ => false

def Message.concSym : Message → Option String
  | .concentration _ s => some s
  | _ => none

def Message.isCommissionInfo : Message → Bool
  | .commissionInfo _ _ => true
  | _ => false

def Message.isSlippage : Message → Bool
  | .slippage _ _ _ => true
  | _ => false

def Message.isFomo : Message → Bool
  | .fomo _ _ => true
  | _ => false

def Message.isPanicSell : Message → Bool
  | .panicSell _ _ => true
  | _ => false

/-- `transaction.get("amount", 0) * transaction.get("price", 0)` (line 72). -/
def txCost (t : Transaction) : ℚ := t.amount.getD 0 * t.price.getD 0

/-- `asset_values[symbol] = value`: Python dict assignment.  The key
keeps the list position of its first insertion; its value is
overwritten. -/
def upsert (l : List (String × ℚ)) (s : String) (v : ℚ) : List (String × ℚ) :=
  match l with
  | [] => [(s, v)]
  | (k, w) :: tl => if k = s then (s, v) :: tl else (k, w) :: upsert tl s v

/-- One iteration of the valuation loop (lines 88-96) acting on the
state `(asset_values, total_value)`. -/
def holdingStep (md : MarketData) (acc : List (String × ℚ) × ℚ) (h : Holding) :
    List (String × ℚ) × ℚ :=
  match h.activeSymbol with
  | none => acc
  | some s =>
    match dictFind s md with
    | none => acc
    | some tk =>
      let value := h.quantity.getD 0 * tk.price.getD 0
      (upsert acc.1 s value, acc.2 + value)

/-- The `asset_values` component of the valuation loop alone. -/
def stepA (md : MarketData) (acc : List (String × ℚ)) (h : Holding) :
    List (String × ℚ) :=
  match h.activeSymbol with
  | none => acc
  | some s =>
    match dictFind s md with
    | none => acc
    | some tk => upsert acc s (h.quantity.getD 0 * tk.price.getD 0)

/-- The `asset_values` dict after the loop of lines 88-96. -/
def asset_values (hs : List Holding) (md : MarketData) : List (String × ℚ) :=
  hs.foldl (stepA md) []

/-- The `total_value` accumulator after the loop of lines 84-96
(started at the post-transaction cash). -/
def total_value (hs : List Holding) (md : MarketData) (cash : ℚ) : ℚ :=
  (hs.foldl (holdingStep md) ([], cash)).2

/-- The market values of the holdings whose symbol is in the snapshot,
in holdings order, every occurrence kept. -/
def inMarketValues (hs : List Holding) (md : MarketData) : List ℚ :=
  hs.filterMap (fun h =>
    match h.activeSymbol with
    | none => none
    | some s =>
      match dictFind s md with
      | none => none
      | some tk => some (h.quantity.getD 0 * tk.price.getD 0))

/-- The symbols of the holdings that are in the snapshot, in holdings
order, with repetitions. -/
def inMarketSyms (hs : List Holding) (md : MarketData) : List String :=
  hs.filterMap (fun h =>
    match h.activeSymbol with
    | none => none
    | some s => if (dictFind s md).isSome then some s else none)

/-- The value recorded for `s` in `asset_values`: the last in-market
occurrence wins.  `none` when the symbol is not in the snapshot or
never held. -/
def lastVal (hs : List Holding) (md : MarketData) (s : String) : Option ℚ :=
  match dictFind s md with
  | none => none
  | some tk =>
    ((hs.filter (fun h => h.activeSymbol == some s)).getLast?).map
      (fun h => h.quantity.getD 0 * tk.price.getD 0)

/-- The all-in branch of `analyze_risk` (lines 71-79). -/
def allInFeedback (p : Portafolio) (t : Transaction) : List Feedback :=
  let cash_after_tx := p.cash.getD 0
  if t.type = some "BUY" then
    let tx_cost := t.amount.getD 0 * t.price.getD 0
    let cash_before_tx := cash_after_tx + tx_cost
    if 0 < cash_before_tx ∧ (9 : ℚ) / 10 < tx_cost / cash_before_tx then
      [⟨p.id, Message.allIn (tx_cost / cash_before_tx * 100) t.activeSymbol, "RISK_ALERT"⟩]
    else []
  else []

/-- The concentration branch of `analyze_risk` (lines 84-106): value
the holdings, return early when the total is 0, else alert on every
`asset_values` entry whose share of the total exceeds 60%. -/
def concFeedback (p : Portafolio) (md : MarketData) : List Feedback :=
  let st := p.holdings.foldl (holdingStep md) ([], p.cash.getD 0)
  if st.2 = 0 then []
  else
    (st.1.filter (fun sv => decide (60 < sv.2 / st.2 * 100))).map
      (fun sv => ⟨p.id, Message.concentration (sv.2 / st.2 * 100) sv.1, "RISK_ALERT"⟩)

/-- `analyze_risk` (lines 63-106): the all-in alert is dispatched
before the concentration alerts. -/
def analyze_risk (p : Portafolio) (t : Transaction) (md : MarketData) :
    List Feedback :=
  allInFeedback p t ++ concFeedback p md

/-- `commission_paid` (lines 119-120): computed on every call. -/
def commission_paid (t : Transaction) : ℚ :=
  (t.amount.getD 0 * t.price.getD 0) * SIMULATED_FEE_RATE

/-- `msg_cost` (lines 123-124): built on every call, and never passed
to `send_feedback_to_nestjs` (line 126 is commented out). -/
def msg_cost (t : Transaction) : Message :=
  Message.commissionInfo t.activeSymbol (commission_paid t)

/-- The `slippage` variable of lines 133-143. -/
def slippageOf (t : Transaction) (tk : Ticker) : ℚ :=
  let tx_price := t.price.getD 0
  if t.type = some "BUY" then
    let best_ask := tk.best_ask.getD tx_price
    if best_ask < tx_price then tx_price - best_ask else 0
  else if t.type = some "SELL" then
    let best_bid := tk.best_bid.getD tx_price
    if tx_price < best_bid then best_bid - tx_price else 0
  else 0

/-- `analyze_costs_and_slippage` (lines 110-151).  Python evaluates
`slippage > 0 and (slippage / tx_price) > SLIPPAGE_TOLERANCE` left to
right, so the division is reached exactly when `slippage > 0`, and it
raises `ZeroDivisionError` (`Except.error ()`) when `tx_price = 0`. -/
def analyze_costs_and_slippage (t : Transaction) (md : MarketData) :
    Except Unit (List Feedback) :=
  let _msg_cost := msg_cost t
  match mdFind md t.activeSymbol with
  | none => Except.ok []
  | some tk =>
    let tx_price := t.price.getD 0
    let slippage := slippageOf t tk
    if 0 < slippage then
      if tx_price = 0 then Except.error ()
      else if SLIPPAGE_TOLERANCE < slippage / tx_price then
        Except.ok
          [⟨t.portafolioId, Message.slippage t.type t.activeSymbol (slippage / tx_price * 100),
            "COST_ANALYSIS"⟩]
      else Except.ok []
    else Except.ok []

/-- The notifications actually sent by a possibly-raising evaluator: a
raise happens before any `send_feedback_to_nestjs` call, so an
exception means nothing was dispatched. -/
def sentList : Except Unit (List Feedback) → List Feedback
  | .ok l => l
  | .error _ => []

/-- `analyze_behavior` (lines 155-182). -/
def analyze_behavior (t : Transaction) (md : MarketData) : List Feedback :=
  match mdFind md t.activeSymbol with
  | none => []
  | some tk =>
    let price_change_24h := tk.price_percent_chg_24_h.getD 0
    if t.type = some "BUY" then
      if 0 < price_change_24h then
        [⟨t.portafolioId, Message.fomo t.activeSymbol price_change_24h, "BEHAVIORAL_NUDGE"⟩]
      else []
    else if t.type = some "SELL" then
      if price_change_24h < 0 then
        [⟨t.portafolioId, Message.panicSell t.activeSymbol price_change_24h, "BEHAVIORAL_NUDGE"⟩]
      else []
    else []

/-- The body of a `POST /analyze-trade` request; a missing top-level
object is the empty dict, i.e. the record with every field absent. -/
structure RequestData where
  portafolio : Portafolio
  transaction : Transaction
  marketData : MarketData
deriving Repr, DecidableEq

/-- The two JSON payloads `analyze_trade` can return itself; an escaped
exception (HTTP 500) is `Except.error`. -/
inductive Response where
  | errorNoId
  | analysisQueued
deriving Repr, DecidableEq

/-- Python truthiness of `portafolio.get("id")`: `None` and `""` are
falsy. -/
def falsyId : Option String → Bool
  | none => true
  | some s => s == ""

/-- `analyze_trade` (lines 38-59): validate the id, then run the three
evaluators in order, collecting every dispatched notification.  If the
cost evaluator raises, the risk notifications were already dispatched
and the behavior evaluator never runs. -/
def analyze_trade (d : RequestData) : List Feedback × Except Unit Response :=
  if falsyId d.portafolio.id then ([], Except.ok Response.errorNoId)
  else
    let riskFb := analyze_risk d.portafolio d.transaction d.marketData
    match analyze_costs_and_slippage d.transaction d.marketData with
    | .error e => (riskFb, Except.error e)
    | .ok costFb =>
      let behFb := analyze_behavior d.transaction d.marketData
      (riskFb ++ costFb ++ behFb, Except.ok Response.analysisQueued)

/-- All-in alerts among a feedback list. -/
def allInPred (f : Feedback) : Bool :=
  f.message.isAllIn && decide (f.ftype = "RISK_ALERT")

/-- Concentration alerts for symbol `s` among a feedback list. -/
def concPred (s : String) (f : Feedback) : Bool :=
  decide (f.message.concSym = some s) && decide (f.ftype = "RISK_ALERT")

/-- The symbols of the concentration alerts of a feedback list, in
dispatch order. -/
def concAlertSyms (l : List Feedback) : List String :=
  l.filterMap (fun f => f.message.concSym)

/-! ### Helper lemmas about the association-list model of `asset_values` -/

theorem dictFind_upsert_self (l : List (String × ℚ)) (s : String) (v : ℚ) :
    dictFind s (upsert l s v) = some v := by
  induction l with
  | nil => simp [upsert, dictFind]
  | cons kv tl ih =>
    obtain ⟨k, w⟩ := kv
    by_cases hk : k = s
    · subst hk
      simp [upsert, dictFind]
    · simp [upsert, dictFind, hk, ih]

theorem dictFind_upsert_ne (l : List (String × ℚ)) (s : String) (v : ℚ)
    (s' : String) (h : s' ≠ s) :
    dictFind s' (upsert l s v) = dictFind s' l := by
  induction l with
  | nil => simp [upsert, dictFind, Ne.symm h]
  | cons kv tl ih =>
    obtain ⟨k, w⟩ := kv
    by_cases hk : k = s
    · subst hk
      simp [upsert, dictFind, Ne.symm h]
    · simp [upsert, dictFind, hk, ih]

theorem upsert_fst_of_mem {l : List (String × ℚ)} {s : String} (v : ℚ)
    (hm : s ∈ l.map Prod.fst) :
    (upsert l s v).map Prod.fst = l.map Prod.fst := by
  induction l with
  | nil => simp at hm
  | cons kv tl ih =>
    obtain ⟨k, w⟩ := kv
    by_cases hk : k = s
    · subst hk
      simp [upsert]
    · have hm' : s ∈ tl.map Prod.fst := by
        simp only [List.map_cons, List.mem_cons] at hm
        rcases hm with h1 | h1
        · exact absurd h1.symm hk
        · exact h1
      simp [upsert, hk, ih hm']

theorem upsert_fst_of_not_mem {l : List (String × ℚ)} {s : String} (v : ℚ)
    (hm : s ∉ l.map Prod.fst) :
    (upsert l s v).map Prod.fst = l.map Prod.fst ++ [s] := by
  induction l with
  | nil => simp [upsert]
  | cons kv tl ih =>
    obtain ⟨k, w⟩ := kv
    have hk : k ≠ s := by
      intro hh
      exact hm (by simp [hh])
    have hm' : s ∉ tl.map Prod.fst := by
      intro hh
      exact hm (by simp [hh])
    simp [upsert, hk, ih hm']

/-! ### The valuation loop: projections and characterisations -/

theorem foldl_holdingStep_fst (md : MarketData) (hs : List Holding) :
    ∀ acc c, (hs.foldl (holdingStep md) (acc, c)).1 = hs.foldl (stepA md) acc := by
  induction hs with
  | nil => intro acc c; rfl
  | cons h tl ih =>
    intro acc c
    show (tl.foldl (holdingStep md) (holdingStep md (acc, c) h)).1
        = tl.foldl (stepA md) (stepA md acc h)
    cases hsym : h.activeSymbol with
    | none =>
      simp only [holdingStep, stepA, hsym]
      exact ih acc c
    | some s =>
      cases hmd : dictFind s md with
      | none =>
        simp only [holdingStep, stepA, hsym, hmd]
        exact ih acc c
      | some tk =>
        simp only [holdingStep, stepA, hsym, hmd]
        exact ih _ _

theorem foldl_holdingStep_snd (md : MarketData) (hs : List Holding) :
    ∀ c, (hs.foldl (holdingStep md) ([], c)).2 = c + (inMarketValues hs md).sum := by
  have key : ∀ (hs : List Holding) acc c,
      ((hs.foldl (holdingStep md) (acc, c)).2 : ℚ) = c + (inMarketValues hs md).sum := by
    intro hs
    induction hs with
    | nil => intro acc c; simp [inMarketValues]
    | cons h tl ih =>
      intro acc c
      show (tl.foldl (holdingStep md) (holdingStep md (acc, c) h)).2 = _
      cases hsym : h.activeSymbol with
      | none =>
        simp only [holdingStep, hsym]
        rw [ih acc c]
        simp [inMarketValues, List.filterMap_cons, hsym]
      | some s =>
        cases hmd : dictFind s md with
        | none =>
          simp only [holdingStep, hsym, hmd]
          rw [ih acc c]
          simp [inMarketValues, List.filterMap_cons, hsym, hmd]
        | some tk =>
          simp only [holdingStep, hsym, hmd]
          rw [ih _ _]
          simp only [inMarketValues, List.filterMap_cons, hsym, hmd]
          rw [List.sum_cons]
          ring
  intro c
  exact key hs [] c

theorem total_value_eq_cash_add_sum (hs : List Holding) (md : MarketData) (cash : ℚ) :
    total_value hs md cash = cash + (inMarketValues hs md).sum :=
  foldl_holdingStep_snd md hs cash

theorem foldl_stepA_nodup (md : MarketData) (hs : List Holding) :
    ∀ acc : List (String × ℚ), (acc.map Prod.fst).Nodup →
      ((hs.foldl (stepA md) acc).map Prod.fst).Nodup := by
  induction hs with
  | nil => intro acc hnd; exact hnd
  | cons h tl ih =>
    intro acc hnd
    show ((tl.foldl (stepA md) (stepA md acc h)).map Prod.fst).Nodup
    cases hsym : h.activeSymbol with
    | none =>
      simp only [stepA, hsym]
      exact ih acc hnd
    | some s =>
      cases hmd : dictFind s md with
      | none =>
        simp only [stepA, hsym, hmd]
        exact ih acc hnd
      | some tk =>
        simp only [stepA, hsym, hmd]
        apply ih
        by_cases hmem : s ∈ acc.map Prod.fst
        · rw [upsert_fst_of_mem _ hmem]
          exact hnd
        · rw [upsert_fst_of_not_mem _ hmem]
          simp [List.nodup_append, hnd]
          intro a ha
          exact hmem (List.mem_map.mpr ⟨(s, a), ha, rfl⟩)

theorem asset_values_nodup (hs : List Holding) (md : MarketData) :
    ((asset_values hs md).map Prod.fst).Nodup :=
  foldl_stepA_nodup md hs [] (by simp)

theorem foldl_stepA_keys (md : MarketData) (hs : List Holding) :
    ∀ acc : List (String × ℚ), ∃ ks : List String,
      (hs.foldl (stepA md) acc).map Prod.fst = acc.map Prod.fst ++ ks ∧
      ks.Sublist (inMarketSyms hs md) := by
  induction hs with
  | nil =>
    intro acc
    exact ⟨[], by simp, by simp⟩
  | cons h tl ih =>
    intro acc
    cases hsym : h.activeSymbol with
    | none =>
      obtain ⟨ks, hks, hsub⟩ := ih acc
      refine ⟨ks, ?_, ?_⟩
      · show (tl.foldl (stepA md) (stepA md acc h)).map Prod.fst = _
        simp only [stepA, hsym]
        exact hks
      · simp only [inMarketSyms, List.filterMap_cons, hsym]
        exact hsub
    | some s =>
      cases hmd : dictFind s md with
      | none =>
        obtain ⟨ks, hks, hsub⟩ := ih acc
        refine ⟨ks, ?_, ?_⟩
        · show (tl.foldl (stepA md) (stepA md acc h)).map Prod.fst = _
          simp only [stepA, hsym, hmd]
          exact hks
        · simp only [inMarketSyms, List.filterMap_cons, hsym, hmd]
          exact hsub
      | some tk =>
        have hsome : (dictFind s md).isSome := by rw [hmd]; rfl
        by_cases hmem : s ∈ acc.map Prod.fst
        · obtain ⟨ks, hks, hsub⟩ := ih (upsert acc s (h.quantity.getD 0 * tk.price.getD 0))
          refine ⟨ks, ?_, ?_⟩
          · show (tl.foldl (stepA md) (stepA md acc h)).map Prod.fst = _
            simp only [stepA, hsym, hmd]
            rw [hks, upsert_fst_of_mem _ hmem]
          · simp only [inMarketSyms, List.filterMap_cons, hsym, hsome, if_pos]
            exact hsub.cons s
        · obtain ⟨ks, hks, hsub⟩ := ih (upsert acc s (h.quantity.getD 0 * tk.price.getD 0))
          refine ⟨s :: ks, ?_, ?_⟩
          · show (tl.foldl (stepA md) (stepA md acc h)).map Prod.fst = _
            simp only [stepA, hsym, hmd]
            rw [hks, upsert_fst_of_not_mem _ hmem]
            simp
          · simp only [inMarketSyms, List.filterMap_cons, hsym, hsome, if_pos]
            exact hsub.cons₂ s

theorem asset_values_keys_sublist (hs : List Holding) (md : MarketData) :
    ((asset_values hs md).map Prod.fst).Sublist (inMarketSyms hs md) := by
  obtain ⟨ks, hks, hsub⟩ := foldl_stepA_keys md hs []
  simpa [asset_values, hks] using hsub

theorem getLast?_cons_or {α : Type} (a : α) (l : List α) :
    (a :: l).getLast? = l.getLast?.or (some a) := by
  induction l generalizing a with
  | nil => rfl
  | cons b tl ih =>
    rw [List.getLast?_cons_cons, ih b]
    cases htl : tl.getLast? with
    | none => simp
    | some x => simp

theorem foldl_stepA_dictFind (md : MarketData) (hs : List Holding) (s : String) :
    ∀ acc : List (String × ℚ),
      dictFind s (hs.foldl (stepA md) acc) = (lastVal hs md s).or (dictFind s acc) := by
  induction hs with
  | nil =>
    intro acc
    cases hmd : dictFind s md <;> simp [lastVal, hmd]
  | cons h tl ih =>
    intro acc
    show dictFind s (tl.foldl (stepA md) (stepA md acc h)) = _
    cases hsym : h.activeSymbol with
    | none =>
      simp only [stepA, hsym]
      rw [ih acc]
      have : lastVal (h :: tl) md s = lastVal tl md s := by
        cases hmd : dictFind s md with
        | none => simp [lastVal, hmd]
        | some tk => simp [lastVal, hmd, List.filter_cons, hsym]
      rw [this]
    | some s0 =>
      cases hmd0 : dictFind s0 md with
      | none =>
        simp only [stepA, hsym, hmd0]
        rw [ih acc]
        have : lastVal (h :: tl) md s = lastVal tl md s := by
          cases hmd : dictFind s md with
          | none => simp [lastVal, hmd]
          | some tk =>
            by_cases hss : s0 = s
            · subst hss
              rw [hmd] at hmd0
              cases hmd0
            · simp [lastVal, hmd, List.filter_cons, hsym, hss]
        rw [this]
      | some tk0 =>
        by_cases hss : s0 = s
        · subst hss
          simp only [stepA, hsym, hmd0]
          rw [ih _, dictFind_upsert_self]
          have hlast : lastVal (h :: tl) md s0
              = (lastVal tl md s0).or (some (h.quantity.getD 0 * tk0.price.getD 0)) := by
            simp only [lastVal, hmd0, List.filter_cons, hsym, beq_self_eq_true, if_true]
            rw [getLast?_cons_or]
            cases htl : (tl.filter (fun hh => hh.activeSymbol == some s0)).getLast? with
            | none => simp
            | some x => simp
          rw [hlast, Option.or_assoc]
          simp
        · simp only [stepA, hsym, hmd0]
          rw [ih _, dictFind_upsert_ne _ _ _ _ (Ne.symm hss)]
          have hlast : lastVal (h :: tl) md s = lastVal tl md s := by
            cases hmd : dictFind s md with
            | none => simp [lastVal, hmd]
            | some tk => simp [lastVal, hmd, List.filter_cons, hsym, hss]
          rw [hlast]

theorem asset_values_dictFind (hs : List Holding) (md : MarketData) (s : String) :
    dictFind s (asset_values hs md) = lastVal hs md s := by
  rw [asset_values, foldl_stepA_dictFind]
  simp [dictFind]

/-! ### Counting keyed entries in the filtered `asset_values` list -/

theorem countP_fst_filter (av : List (String × ℚ)) (p : String × ℚ → Bool) (s : String)
    (hnd : (av.map Prod.fst).Nodup) :
    (av.filter p).countP (fun sv => decide (sv.1 = s)) =
      match dictFind s av with
      | none => 0
      | some v => if p (s, v) then 1 else 0 := by
  induction av with
  | nil => simp [dictFind]
  | cons kv tl ih =>
    obtain ⟨k, w⟩ := kv
    rw [List.map_cons, List.nodup_cons] at hnd
    obtain ⟨hk_not, hnd'⟩ := hnd
    by_cases hk : k = s
    · subst hk
      have hzero : (tl.filter p).countP (fun sv => decide (sv.1 = k)) = 0 := by
        rw [List.countP_eq_zero]
        intro sv hsv
        have hmem : sv.1 ∈ tl.map Prod.fst :=
          List.mem_map.mpr ⟨sv, (List.mem_filter.mp hsv).1, rfl⟩
        simp only [decide_eq_true_eq]
        intro heq
        exact hk_not (heq ▸ hmem)
      cases hp : p (k, w) with
      | true => simp [dictFind, List.filter_cons, hp, List.countP_cons, hzero]
      | false => simp [dictFind, List.filter_cons, hp, hzero]
    · cases hp : p (k, w) with
      | true => simp [dictFind, List.filter_cons, hp, List.countP_cons, hk, ih hnd']
      | false => simp [dictFind, List.filter_cons, hp, hk, ih hnd']

theorem countP_concMap (av : List (String × ℚ)) (tv : ℚ) (pid : Option String) (s : String)
    (hnd : (av.map Prod.fst).Nodup) :
    ((av.filter (fun sv => decide (60 < sv.2 / tv * 100))).map
      (fun sv => (⟨pid, Message.concentration (sv.2 / tv * 100) sv.1, "RISK_ALERT"⟩ : Feedback))).countP
        (concPred s) =
      match dictFind s av with
      | none => 0
      | some v => if 60 < v / tv * 100 then 1 else 0 := by
  rw [List.countP_map]
  have hcomp : (concPred s ∘ fun sv : String × ℚ =>
      (⟨pid, Message.concentration (sv.2 / tv * 100) sv.1, "RISK_ALERT"⟩ : Feedback))
      = fun sv : String × ℚ => decide (sv.1 = s) := by
    funext sv
    by_cases hx : sv.1 = s <;> simp [concPred, Message.concSym, Function.comp, hx]
  rw [hcomp]
  rw [countP_fst_filter av _ s hnd]
  cases hdf : dictFind s av <;> simp

/-! ### Shape of the feedback each evaluator can emit -/

theorem mem_allInFeedback {p : Portafolio} {t : Transaction} {f : Feedback}
    (hf : f ∈ allInFeedback p t) :
    f.ftype = "RISK_ALERT" ∧ f.message.isAllIn = true := by
  simp only [allInFeedback] at hf
  split_ifs at hf with h1 h2
  · rw [List.mem_singleton] at hf
    subst hf
    exact ⟨rfl, rfl⟩
  · exact absurd hf (List.not_mem_nil f)
  · exact absurd hf (List.not_mem_nil f)

theorem mem_concFeedback {p : Portafolio} {md : MarketData} {f : Feedback}
    (hf : f ∈ concFeedback p md) :
    f.ftype = "RISK_ALERT" ∧ f.message.isConc = true := by
  simp only [concFeedback] at hf
  split_ifs at hf with h0
  · cases hf
  · obtain ⟨sv, hsv, rfl⟩ := List.mem_map.mp hf
    exact ⟨rfl, rfl⟩

theorem mem_analyze_risk {p : Portafolio} {t : Transaction} {md : MarketData} {f : Feedback}
    (hf : f ∈ analyze_risk p t md) :
    f.ftype = "RISK_ALERT" ∧ (f.message.isAllIn = true ∨ f.message.isConc = true) := by
  rw [analyze_risk, List.mem_append] at hf
  rcases hf with hf | hf
  · obtain ⟨h1, h2⟩ := mem_allInFeedback hf
    exact ⟨h1, Or.inl h2⟩
  · obtain ⟨h1, h2⟩ := mem_concFeedback hf
    exact ⟨h1, Or.inr h2⟩

theorem mem_analyze_behavior {t : Transaction} {md : MarketData} {f : Feedback}
    (hf : f ∈ analyze_behavior t md) :
    f.ftype = "BEHAVIORAL_NUDGE" ∧ (f.message.isFomo = true ∨ f.message.isPanicSell = true) := by
  simp only [analyze_behavior] at hf
  cases hmd : mdFind md t.activeSymbol <;> simp only [hmd] at hf
  · exact absurd hf (List.not_mem_nil f)
  · split_ifs at hf with h1 h2 h3 h4
    · rw [List.mem_singleton] at hf
      subst hf
      exact ⟨rfl, Or.inl rfl⟩
    · exact absurd hf (List.not_mem_nil f)
    · rw [List.mem_singleton] at hf
      subst hf
      exact ⟨rfl, Or.inr rfl⟩
    · exact absurd hf (List.not_mem_nil f)
    · exact absurd hf (List.not_mem_nil f)

theorem cost_ok_mem {t : Transaction} {md : MarketData} {l : List Feedback} {f : Feedback}
    (h : analyze_costs_and_slippage t md = Except.ok l) (hf : f ∈ l) :
    f.ftype = "COST_ANALYSIS" ∧ f.message.isSlippage = true := by
  simp only [analyze_costs_and_slippage] at h
  cases hmd : mdFind md t.activeSymbol <;> simp only [hmd] at h
  · injection h with h'
    subst h'
    exact absurd hf (List.not_mem_nil f)
  · split_ifs at h with h1 h2 h3
    all_goals
      first
        | exact Except.noConfusion h
        | (injection h with h'
           subst h'
           first
             | exact absurd hf (List.not_mem_nil f)
             | (rw [List.mem_singleton] at hf
                subst hf
                exact ⟨rfl, rfl⟩))

/-! ### Count characterisations for `analyze_risk` -/

theorem allInFeedback_countP (p : Portafolio) (t : Transaction) :
    (allInFeedback p t).countP allInPred =
      if t.type = some "BUY" ∧ 0 < p.cash.getD 0 + txCost t
          ∧ (9 : ℚ) / 10 < txCost t / (p.cash.getD 0 + txCost t) then 1 else 0 := by
  by_cases h1 : t.type = some "BUY"
  · by_cases h2 : 0 < p.cash.getD 0 + txCost t
        ∧ (9 : ℚ) / 10 < txCost t / (p.cash.getD 0 + txCost t)
    · rw [if_pos ⟨h1, h2.1, h2.2⟩]
      simp only [allInFeedback, txCost] at h2 ⊢
      rw [if_pos h1, if_pos h2]
      simp [allInPred, Message.isAllIn, List.countP_cons]
    · rw [if_neg (fun hc => h2 ⟨hc.2.1, hc.2.2⟩)]
      simp only [allInFeedback, txCost] at h2 ⊢
      rw [if_pos h1, if_neg h2]
      rfl
  · rw [if_neg (fun hc => h1 hc.1)]
    simp only [allInFeedback]
    rw [if_neg h1]
    rfl

theorem concFeedback_countP_allIn (p : Portafolio) (md : MarketData) :
    (concFeedback p md).countP allInPred = 0 := by
  rw [List.countP_eq_zero]
  intro f hf
  obtain ⟨hft, hc⟩ := mem_concFeedback hf
  rcases f with ⟨pid, m, ft⟩
  cases m <;> simp_all [allInPred, Message.isAllIn, Message.isConc]

theorem allInFeedback_countP_conc (p : Portafolio) (t : Transaction) (s : String) :
    (allInFeedback p t).countP (concPred s) = 0 := by
  rw [List.countP_eq_zero]
  intro f hf
  obtain ⟨hft, ha⟩ := mem_allInFeedback hf
  rcases f with ⟨pid, m, ft⟩
  cases m <;> simp_all [concPred, Message.isAllIn, Message.concSym]

theorem analyze_risk_allin_countP (p : Portafolio) (t : Transaction) (md : MarketData) :
    (analyze_risk p t md).countP allInPred =
      if t.type = some "BUY" ∧ 0 < p.cash.getD 0 + txCost t
          ∧ (9 : ℚ) / 10 < txCost t / (p.cash.getD 0 + txCost t) then 1 else 0 := by
  rw [analyze_risk, List.countP_append, concFeedback_countP_allIn, allInFeedback_countP]
  omega

theorem concFeedback_countP (p : Portafolio) (md : MarketData) (s : String) :
    (concFeedback p md).countP (concPred s) =
      if total_value p.holdings md (p.cash.getD 0) = 0 then 0
      else
        match dictFind s (asset_values p.holdings md) with
        | none => 0
        | some v => if 60 < v / total_value p.holdings md (p.cash.getD 0) * 100 then 1 else 0 := by
  have hkey : (p.holdings.foldl (holdingStep md) ([], p.cash.getD 0)).1
      = asset_values p.holdings md :=
    foldl_holdingStep_fst md p.holdings [] (p.cash.getD 0)
  simp only [concFeedback, total_value]
  by_cases h0 : (p.holdings.foldl (holdingStep md) ([], p.cash.getD 0)).2 = 0
  · rw [if_pos h0, if_pos h0]
    rfl
  · rw [if_neg h0, if_neg h0, hkey]
    exact countP_concMap (asset_values p.holdings md)
      (p.holdings.foldl (holdingStep md) ([], p.cash.getD 0)).2 p.id s
      (asset_values_nodup p.holdings md)

theorem analyze_risk_conc_countP (p : Portafolio) (t : Transaction) (md : MarketData) (s : String) :
    (analyze_risk p t md).countP (concPred s) =
      if total_value p.holdings md (p.cash.getD 0) = 0 then 0
      else
        match dictFind s (asset_values p.holdings md) with
        | none => 0
        | some v => if 60 < v / total_value p.holdings md (p.cash.getD 0) * 100 then 1 else 0 := by
  rw [analyze_risk, List.countP_append, allInFeedback_countP_conc, concFeedback_countP]
  omega

/-! ### Order of the concentration alerts -/

theorem concAlertSyms_allInFeedback (p : Portafolio) (t : Transaction) :
    concAlertSyms (allInFeedback p t) = [] := by
  simp only [allInFeedback]
  split_ifs with h1 h2 <;> simp [concAlertSyms, Message.concSym]

theorem concAlertSyms_append (l1 l2 : List Feedback) :
    concAlertSyms (l1 ++ l2) = concAlertSyms l1 ++ concAlertSyms l2 := by
  simp [concAlertSyms]

theorem concAlertSyms_concFeedback (p : Portafolio) (md : MarketData) :
    (concAlertSyms (concFeedback p md)).Sublist
      ((asset_values p.holdings md).map Prod.fst) := by
  have hkey : (p.holdings.foldl (holdingStep md) ([], p.cash.getD 0)).1
      = asset_values p.holdings md :=
    foldl_holdingStep_fst md p.holdings [] (p.cash.getD 0)
  simp only [concFeedback]
  split_ifs with h0
  · simp [concAlertSyms]
  · rw [hkey]
    have hmap : ∀ (av : List (String × ℚ)) (tv : ℚ),
        concAlertSyms (av.map (fun sv => (⟨p.id,
            Message.concentration (sv.2 / tv * 100) sv.1, "RISK_ALERT"⟩ : Feedback)))
          = av.map Prod.fst := by
      intro av tv
      rw [concAlertSyms, List.filterMap_map]
      exact congrFun (List.filterMap_eq_map Prod.fst) av
    rw [hmap]
    exact (List.filter_sublist (asset_values p.holdings md)).map Prod.fst

theorem concAlertSyms_analyze_risk_sublist (p : Portafolio) (t : Transaction) (md : MarketData) :
    (concAlertSyms (analyze_risk p t md)).Sublist (inMarketSyms p.holdings md) := by
  rw [analyze_risk, concAlertSyms_append, concAlertSyms_allInFeedback]
  simp only [List.nil_append]
  exact (concAlertSyms_concFeedback p md).trans (asset_values_keys_sublist p.holdings md)

/-! ### Characterisation of the cost/slippage evaluator -/

theorem slippageOf_eq_max (t : Transaction) (tk : Ticker) :
    slippageOf t tk =
      if t.type = some "BUY" then
        max 0 (t.price.getD 0 - tk.best_ask.getD (t.price.getD 0))
      else if t.type = some "SELL" then
        max 0 (tk.best_bid.getD (t.price.getD 0) - t.price.getD 0)
      else 0 := by
  simp only [slippageOf]
  by_cases h1 : t.type = some "BUY"
  · rw [if_pos h1, if_pos h1]
    rcases lt_or_le (tk.best_ask.getD (t.price.getD 0)) (t.price.getD 0) with h | h
    · rw [if_pos h, max_eq_right (by linarith)]
    · rw [if_neg (not_lt.mpr h), max_eq_left (by linarith)]
  · rw [if_neg h1, if_neg h1]
    by_cases h2 : t.type = some "SELL"
    · rw [if_pos h2, if_pos h2]
      rcases lt_or_le (t.price.getD 0) (tk.best_bid.getD (t.price.getD 0)) with h | h
      · rw [if_pos h, max_eq_right (by linarith)]
      · rw [if_neg (not_lt.mpr h), max_eq_left (by linarith)]
    · rw [if_neg h2, if_neg h2]

theorem slippageOf_nonneg (t : Transaction) (tk : Ticker) : 0 ≤ slippageOf t tk := by
  rw [slippageOf_eq_max]
  split_ifs with h1 h2
  · exact le_max_left 0 _
  · exact le_max_left 0 _
  · exact le_refl 0

theorem cost_countP (t : Transaction) (md : MarketData) :
    (sentList (analyze_costs_and_slippage t md)).countP
        (fun f => decide (f.ftype = "COST_ANALYSIS")) =
      match mdFind md t.activeSymbol with
      | none => 0
      | some tk =>
        if 0 < slippageOf t tk ∧ SLIPPAGE_TOLERANCE < slippageOf t tk / t.price.getD 0
        then 1 else 0 := by
  simp only [analyze_costs_and_slippage]
  cases hmd : mdFind md t.activeSymbol <;> simp only [hmd]
  · rfl
  case some tk =>
    by_cases h1 : 0 < slippageOf t tk
    · by_cases h2 : t.price.getD 0 = 0
      · rw [if_pos h1, if_pos h2]
        have hno : ¬ SLIPPAGE_TOLERANCE < slippageOf t tk / t.price.getD 0 := by
          rw [h2, div_zero]
          norm_num [SLIPPAGE_TOLERANCE]
        rw [if_neg (fun hc => hno hc.2)]
        rfl
      · rw [if_pos h1, if_neg h2]
        by_cases h3 : SLIPPAGE_TOLERANCE < slippageOf t tk / t.price.getD 0
        · rw [if_pos h3, if_pos ⟨h1, h3⟩]
          simp [sentList, List.countP_cons]
        · rw [if_neg h3, if_neg (fun hc => h3 hc.2)]
          rfl
    · rw [if_neg h1, if_neg (fun hc => h1 hc.1)]
      rfl

/-! ### Characterisation of the behavioral evaluator -/

theorem behavior_fomo_countP (t : Transaction) (md : MarketData) :
    (analyze_behavior t md).countP (fun f => f.message.isFomo) =
      match mdFind md t.activeSymbol with
      | none => 0
      | some tk =>
        if t.type = some "BUY" ∧ 0 < tk.price_percent_chg_24_h.getD 0 then 1 else 0 := by
  simp only [analyze_behavior]
  cases hmd : mdFind md t.activeSymbol <;> simp only [hmd]
  · rfl
  case some tk =>
    by_cases h1 : t.type = some "BUY"
    · by_cases h2 : 0 < tk.price_percent_chg_24_h.getD 0
      · rw [if_pos h1, if_pos h2, if_pos ⟨h1, h2⟩]
        simp [Message.isFomo, List.countP_cons]
      · rw [if_pos h1, if_neg h2, if_neg (fun hc => h2 hc.2)]
        rfl
    · have hrhs : ¬ (t.type = some "BUY" ∧ 0 < tk.price_percent_chg_24_h.getD 0) :=
        fun hc => h1 hc.1
      rw [if_neg h1, if_neg hrhs]
      by_cases h3 : t.type = some "SELL"
      · rw [if_pos h3]
        by_cases h4 : tk.price_percent_chg_24_h.getD 0 < 0
        · rw [if_pos h4]
          simp [Message.isFomo, List.countP_cons]
        · rw [if_neg h4]
          rfl
      · rw [if_neg h3]
        rfl

theorem behavior_panic_countP (t : Transaction) (md : MarketData) :
    (analyze_behavior t md).countP (fun f => f.message.isPanicSell) =
      match mdFind md t.activeSymbol with
      | none => 0
      | some tk =>
        if t.type = some "SELL" ∧ tk.price_percent_chg_24_h.getD 0 < 0 then 1 else 0 := by
  simp only [analyze_behavior]
  cases hmd : mdFind md t.activeSymbol <;> simp only [hmd]
  · rfl
  case some tk =>
    by_cases h1 : t.type = some "BUY"
    · have hne : ¬ t.type = some "SELL" := by
        rw [h1]
        simp
      have hrhs : ¬ (t.type = some "SELL" ∧ tk.price_percent_chg_24_h.getD 0 < 0) :=
        fun hc => hne hc.1
      rw [if_pos h1, if_neg hrhs]
      by_cases h2 : 0 < tk.price_percent_chg_24_h.getD 0
      · rw [if_pos h2]
        simp [Message.isPanicSell, List.countP_cons]
      · rw [if_neg h2]
        rfl
    · rw [if_neg h1]
      by_cases h3 : t.type = some "SELL"
      · rw [if_pos h3]
        by_cases h4 : tk.price_percent_chg_24_h.getD 0 < 0
        · rw [if_pos h4, if_pos ⟨h3, h4⟩]
          simp [Message.isPanicSell, List.countP_cons]
        · have hrhs : ¬ (t.type = some "SELL" ∧ tk.price_percent_chg_24_h.getD 0 < 0) :=
            fun hc => h4 hc.2
          rw [if_neg h4, if_neg hrhs]
          rfl
      · have hrhs : ¬ (t.type = some "SELL" ∧ tk.price_percent_chg_24_h.getD 0 < 0) :=
          fun hc => h3 hc.1
        rw [if_neg h3, if_neg hrhs]
        rfl

theorem behavior_length_le_one (t : Transaction) (md : MarketData) :
    (analyze_behavior t md).length ≤ 1 := by
  simp only [analyze_behavior]
  cases hmd : mdFind md t.activeSymbol <;> simp only [hmd]
  · simp
  · split_ifs <;> simp

theorem behavior_nudge_countP (t : Transaction) (md : MarketData) :
    (analyze_behavior t md).countP (fun f => decide (f.ftype = "BEHAVIORAL_NUDGE")) =
      (analyze_behavior t md).countP (fun f => f.message.isFomo)
      + (analyze_behavior t md).countP (fun f => f.message.isPanicSell) := by
  simp only [analyze_behavior]
  cases hmd : mdFind md t.activeSymbol <;> simp only [hmd]
  · rfl
  · split_ifs <;> simp [Message.isFomo, Message.isPanicSell, List.countP_cons]

/-! ### Where the notifications of a whole request come from -/

theorem mem_analyze_trade {d : RequestData} {f : Feedback}
    (hf : f ∈ (analyze_trade d).1) :
    f ∈ analyze_risk d.portafolio d.transaction d.marketData
    ∨ (∃ l, analyze_costs_and_slippage d.transaction d.marketData = Except.ok l ∧ f ∈ l)
    ∨ f ∈ analyze_behavior d.transaction d.marketData := by
  simp only [analyze_trade] at hf
  split_ifs at hf with h0
  · exact absurd hf (List.not_mem_nil f)
  · revert hf
    cases hc : analyze_costs_and_slippage d.transaction d.marketData with
    | error e =>
      intro hf
      exact Or.inl hf
    | ok costFb =>
      intro hf
      rw [List.mem_append, List.mem_append] at hf
      rcases hf with (hf | hf) | hf
      · exact Or.inl hf
      · exact Or.inr (Or.inl ⟨costFb, rfl, hf⟩)
      · exact Or.inr (Or.inr hf)

/-! ### The claims -/

/-- C1: for every BUY transaction, the all-in `RISK_ALERT` is emitted
exactly when the reconstructed pre-transaction cash (post-transaction
cash + amount × price) is strictly positive and the transaction cost
divided by it is strictly greater than 0.90; a ratio of exactly 90%
emits no alert, 91% does, and non-BUY transactions or non-positive
pre-transaction cash never emit it. -/
theorem allin_alert_iff_ratio (p : Portafolio) (t : Transaction) (md : MarketData) :
    (analyze_risk p t md).countP allInPred =
      if t.type = some "BUY" ∧ 0 < p.cash.getD 0 + txCost t
          ∧ (9 : ℚ) / 10 < txCost t / (p.cash.getD 0 + txCost t) then 1 else 0 :=
  analyze_risk_allin_countP p t md

/-- C2: slippage is `max(0, tx_price − best_ask)` for BUY and
`max(0, best_bid − tx_price)` for SELL (0 for other types, with the
quote defaulting to the transaction price when absent), hence always
≥ 0; and a `COST_ANALYSIS` notification is dispatched iff the symbol is
in the snapshot, slippage > 0 and slippage / tx_price > 0.001. -/
theorem slippage_notification_iff (t : Transaction) (md : MarketData) :
    (∀ tk : Ticker, 0 ≤ slippageOf t tk ∧
      slippageOf t tk =
        (if t.type = some "BUY" then
          max 0 (t.price.getD 0 - tk.best_ask.getD (t.price.getD 0))
        else if t.type = some "SELL" then
          max 0 (tk.best_bid.getD (t.price.getD 0) - t.price.getD 0)
        else 0))
    ∧ (sentList (analyze_costs_and_slippage t md)).countP
        (fun f => decide (f.ftype = "COST_ANALYSIS")) =
      (match mdFind md t.activeSymbol with
       | none => 0
       | some tk =>
         if 0 < slippageOf t tk ∧ SLIPPAGE_TOLERANCE < slippageOf t tk / t.price.getD 0
         then 1 else 0) :=
  ⟨fun tk => ⟨slippageOf_nonneg t tk, slippageOf_eq_max t tk⟩, cost_countP t md⟩

/-- C4: a symbol receives exactly one concentration `RISK_ALERT` when
its recorded value exceeds 60% of the total portfolio value (computed
only when that total is nonzero), and none otherwise; the alerted
symbols appear as a sublist of the holdings' in-market symbols in
iteration order. -/
theorem concentration_alert_count_and_order (p : Portafolio) (t : Transaction)
    (md : MarketData) (s : String) :
    ((analyze_risk p t md).countP (concPred s) =
      if total_value p.holdings md (p.cash.getD 0) = 0 then 0
      else
        match dictFind s (asset_values p.holdings md) with
        | none => 0
        | some v => if 60 < v / total_value p.holdings md (p.cash.getD 0) * 100 then 1 else 0)
    ∧ (concAlertSyms (analyze_risk p t md)).Sublist (inMarketSyms p.holdings md) :=
  ⟨analyze_risk_conc_countP p t md s, concAlertSyms_analyze_risk_sublist p t md⟩

/-- C6: with the symbol in the snapshot, a BUY with positive 24h change
emits exactly one FOMO nudge, a SELL with negative 24h change exactly
one panic-sell nudge, nothing else emits a `BEHAVIORAL_NUDGE` (absent
symbols emit none), every behavioral notification is one of the two
kinds, and at most one is emitted. -/
theorem behavior_nudge_characterisation (t : Transaction) (md : MarketData) :
    ((analyze_behavior t md).countP (fun f => f.message.isFomo) =
      (match mdFind md t.activeSymbol with
       | none => 0
       | some tk =>
         if t.type = some "BUY" ∧ 0 < tk.price_percent_chg_24_h.getD 0 then 1 else 0))
    ∧ ((analyze_behavior t md).countP (fun f => f.message.isPanicSell) =
      (match mdFind md t.activeSymbol with
       | none => 0
       | some tk =>
         if t.type = some "SELL" ∧ tk.price_percent_chg_24_h.getD 0 < 0 then 1 else 0))
    ∧ (analyze_behavior t md).countP (fun f => decide (f.ftype = "BEHAVIORAL_NUDGE")) =
        (analyze_behavior t md).countP (fun f => f.message.isFomo)
        + (analyze_behavior t md).countP (fun f => f.message.isPanicSell)
    ∧ (analyze_behavior t md).length ≤ 1 :=
  ⟨behavior_fomo_countP t md, behavior_panic_countP t md, behavior_nudge_countP t md,
    behavior_length_le_one t md⟩

/-- C3: the cost/slippage evaluator does raise on a reachable input,
contradicting the never-raises claim: a SELL with a missing transaction
price (defaulting to 0) against a snapshot quoting `best_bid = 100`
computes slippage 100 > 0 and then divides by the zero price
(`ZeroDivisionError`). -/
theorem cost_evaluator_raises_on_missing_price :
    analyze_costs_and_slippage ⟨none, some "X", some "SELL", none, none⟩
        [("X", ⟨none, none, some 100, none⟩)] = Except.error () := by
  norm_num +decide [analyze_costs_and_slippage, mdFind, slippageOf, dictFind]

/-- C5 counterexample: a portfolio with total value −40 (not positive)
still runs the concentration check and emits a `RISK_ALERT`, because
the code only skips when the total is exactly 0. -/
theorem conc_alert_with_negative_total :
    total_value [⟨some "BTC", some (-1)⟩] [("BTC", ⟨some 50, none, none, none⟩)] 10 = -40
    ∧ (analyze_risk ⟨some "p1", some 10, [⟨some "BTC", some (-1)⟩]⟩
        ⟨none, none, none, none, none⟩
        [("BTC", ⟨some 50, none, none, none⟩)]).countP (concPred "BTC") = 1 := by
  constructor
  · norm_num +decide [total_value, holdingStep, upsert, dictFind]
  · norm_num +decide [analyze_risk, allInFeedback, concFeedback, holdingStep, upsert,
      dictFind, concPred, Message.concSym]

/-- C5 (amended): the concentration check is skipped exactly when the
total portfolio value equals 0, and then no concentration `RISK_ALERT`
is emitted; a strictly negative total does not skip the check. -/
theorem total_zero_skips_concentration (p : Portafolio) (t : Transaction) (md : MarketData)
    (h : total_value p.holdings md (p.cash.getD 0) = 0) :
    (analyze_risk p t md).countP (fun f => f.message.isConc) = 0 := by
  rw [analyze_risk, List.countP_append]
  have h1 : (concFeedback p md).countP (fun f => f.message.isConc) = 0 := by
    simp only [concFeedback, total_value] at h ⊢
    rw [if_pos h]
    rfl
  have h2 : (allInFeedback p t).countP (fun f => f.message.isConc) = 0 := by
    rw [List.countP_eq_zero]
    intro f hf
    obtain ⟨hft, ha⟩ := mem_allInFeedback hf
    rcases f with ⟨pid, m, ft⟩
    cases m <;> simp_all [Message.isAllIn, Message.isConc]
  omega

/-- C5 witness: a portfolio whose cash −50 exactly cancels its holding
value 50 has total 0, and no concentration alert is emitted. -/
theorem total_zero_skips_concentration_witness :
    total_value [⟨some "BTC", some 1⟩] [("BTC", ⟨some 50, none, none, none⟩)] (-50 : ℚ) = 0
    ∧ (analyze_risk ⟨some "p1", some (-50), [⟨some "BTC", some 1⟩]⟩
        ⟨none, none, none, none, none⟩
        [("BTC", ⟨some 50, none, none, none⟩)]).countP (fun f => f.message.isConc) = 0 := by
  have h0 : total_value [(⟨some "BTC", some 1⟩ : Holding)]
      [("BTC", (⟨some 50, none, none, none⟩ : Ticker))] (-50 : ℚ) = 0 := by
    norm_num +decide [total_value, holdingStep, upsert, dictFind]
  exact ⟨h0, total_zero_skips_concentration ⟨some "p1", some (-50), [⟨some "BTC", some 1⟩]⟩
    ⟨none, none, none, none, none⟩ [("BTC", ⟨some 50, none, none, none⟩)] h0⟩

/-- C7: a missing or empty portfolio id returns the error payload with
zero notifications dispatched (first two inputs, the first of which
would otherwise alert); but a well-formed id does not guarantee
`analysis_queued`: the third input makes the cost evaluator raise, so
the handler returns an escaped exception (HTTP 500) and the behavior
evaluator never runs. -/
theorem analyze_trade_short_circuit_and_raise :
    analyze_trade ⟨⟨none, none, [⟨some "BTC", some 1⟩]⟩,
        ⟨some "p", some "BTC", some "BUY", some 10, some 1⟩,
        [("BTC", ⟨some 10, none, none, some 5⟩)]⟩ = ([], Except.ok Response.errorNoId)
    ∧ analyze_trade ⟨⟨some "", none, []⟩, ⟨none, none, none, none, none⟩, []⟩
        = ([], Except.ok Response.errorNoId)
    ∧ analyze_trade ⟨⟨some "p1", none, []⟩, ⟨some "p1", some "X", some "SELL", none, none⟩,
        [("X", ⟨none, none, some 100, none⟩)]⟩ = ([], Except.error ()) := by
  refine ⟨?_, ?_, ?_⟩
  · norm_num +decide [analyze_trade, falsyId]
  · norm_num +decide [analyze_trade, falsyId]
  · norm_num +decide [analyze_trade, falsyId, analyze_risk, allInFeedback, concFeedback,
      holdingStep, analyze_costs_and_slippage, mdFind, slippageOf, dictFind]

/-- C8: the commission message (`msg_cost`, built from `commission_paid`
on every call) is never dispatched, and every `COST_ANALYSIS`
notification the program dispatches is a slippage message. -/
theorem cost_analysis_only_from_slippage (d : RequestData) :
    ((analyze_trade d).1.filter (fun f => decide (f.ftype = "COST_ANALYSIS"))).all
        (fun f => f.message.isSlippage) = true
    ∧ (analyze_trade d).1.countP (fun f => decide (f.message = msg_cost d.transaction)) = 0 := by
  constructor
  · rw [List.all_eq_true]
    intro f hf
    rw [List.mem_filter] at hf
    obtain ⟨hmem, hft⟩ := hf
    rw [decide_eq_true_eq] at hft
    rcases mem_analyze_trade hmem with hr | ⟨l, hok, hl⟩ | hb
    · obtain ⟨hft2, _⟩ := mem_analyze_risk hr
      rw [hft2] at hft
      exact absurd hft (by decide)
    · exact (cost_ok_mem hok hl).2
    · obtain ⟨hft2, _⟩ := mem_analyze_behavior hb
      rw [hft2] at hft
      exact absurd hft (by decide)
  · rw [List.countP_eq_zero]
    intro f hf
    simp only [decide_eq_true_eq]
    intro heq
    rcases mem_analyze_trade hf with hr | ⟨l, hok, hl⟩ | hb
    · obtain ⟨_, hm⟩ := mem_analyze_risk hr
      rcases hm with hm | hm
      · rw [heq] at hm
        simp [msg_cost, Message.isAllIn] at hm
      · rw [heq] at hm
        simp [msg_cost, Message.isConc] at hm
    · have hs := (cost_ok_mem hok hl).2
      rw [heq] at hs
      simp [msg_cost, Message.isSlippage] at hs
    · obtain ⟨_, hm⟩ := mem_analyze_behavior hb
      rcases hm with hm | hm
      · rw [heq] at hm
        simp [msg_cost, Message.isFomo] at hm
      · rw [heq] at hm
        simp [msg_cost, Message.isPanicSell] at hm

/-- C9: with a symbol present in the snapshot, the total portfolio
value sums every occurrence of the symbol among the holdings, while the
value recorded for the symbol (used for its concentration percentage)
is the last occurrence's quantity × price, and at most one
concentration `RISK_ALERT` is emitted for the symbol. -/
theorem duplicate_symbol_semantics (p : Portafolio) (t : Transaction) (md : MarketData)
    (s : String) (tk : Ticker) (h1 : dictFind s md = some tk) :
    total_value p.holdings md (p.cash.getD 0)
        = p.cash.getD 0 + (inMarketValues p.holdings md).sum
    ∧ dictFind s (asset_values p.holdings md)
        = ((p.holdings.filter (fun h => h.activeSymbol == some s)).getLast?).map
            (fun h => h.quantity.getD 0 * tk.price.getD 0)
    ∧ (analyze_risk p t md).countP (concPred s) ≤ 1 := by
  refine ⟨total_value_eq_cash_add_sum p.holdings md (p.cash.getD 0), ?_, ?_⟩
  · rw [asset_values_dictFind, lastVal, h1]
  · rw [analyze_risk_conc_countP p t md s]
    split_ifs with h0
    · omega
    · cases hdf : dictFind s (asset_values p.holdings md) with
      | none => exact Nat.zero_le 1
      | some v =>
        show (if 60 < v / total_value p.holdings md (p.cash.getD 0) * 100 then 1 else 0) ≤ 1
        split_ifs <;> omega

/-- C9 witness: holdings BTC 2, ETH 1, BTC 5 against prices BTC 10 and
ETH 1 give the stated conjunction at a concrete input (the recorded BTC
value there is the last occurrence's 5 × 10 = 50 while the total also
counts the first occurrence's 20). -/
theorem duplicate_symbol_semantics_witness :
    dictFind "BTC" ([("BTC", ⟨some 10, none, none, none⟩),
        ("ETH", ⟨some 1, none, none, none⟩)] : MarketData) = some ⟨some 10, none, none, none⟩
    ∧ (total_value [⟨some "BTC", some 2⟩, ⟨some "ETH", some 1⟩, ⟨some "BTC", some 5⟩]
          [("BTC", ⟨some 10, none, none, none⟩), ("ETH", ⟨some 1, none, none, none⟩)] 0
        = 0 + (inMarketValues [⟨some "BTC", some 2⟩, ⟨some "ETH", some 1⟩, ⟨some "BTC", some 5⟩]
          [("BTC", ⟨some 10, none, none, none⟩), ("ETH", ⟨some 1, none, none, none⟩)]).sum
      ∧ dictFind "BTC" (asset_values [⟨some "BTC", some 2⟩, ⟨some "ETH", some 1⟩, ⟨some "BTC", some 5⟩]
          [("BTC", ⟨some 10, none, none, none⟩), ("ETH", ⟨some 1, none, none, none⟩)])
        = (([(⟨some "BTC", some 2⟩ : Holding), ⟨some "ETH", some 1⟩, ⟨some "BTC", some 5⟩].filter
            (fun h => h.activeSymbol == some "BTC")).getLast?).map
            (fun h => h.quantity.getD 0 * (⟨some 10, none, none, none⟩ : Ticker).price.getD 0)
      ∧ (analyze_risk ⟨some "p1", some 0, [⟨some "BTC", some 2⟩, ⟨some "ETH", some 1⟩, ⟨some "BTC", some 5⟩]⟩
          ⟨none, none, none, none, none⟩
          [("BTC", ⟨some 10, none, none, none⟩), ("ETH", ⟨some 1, none, none, none⟩)]).countP
            (concPred "BTC") ≤ 1) :=
  ⟨by norm_num +decide [dictFind],
    duplicate_symbol_semantics
      ⟨some "p1", some 0, [⟨some "BTC", some 2⟩, ⟨some "ETH", some 1⟩, ⟨some "BTC", some 5⟩]⟩
      ⟨none, none, none, none, none⟩
      [("BTC", ⟨some 10, none, none, none⟩), ("ETH", ⟨some 1, none, none, none⟩)]
      "BTC" ⟨some 10, none, none, none⟩ (by norm_num +decide [dictFind])⟩

/-- C10: a BUY with positive cost on a portfolio whose cash field is
absent reconstructs the pre-transaction cash as exactly the transaction
cost, giving a spent ratio of exactly 1 (100%), so the all-in
`RISK_ALERT` is always emitted. -/
theorem allin_alert_missing_cash (p : Portafolio) (t : Transaction) (md : MarketData)
    (h1 : p.cash = none) (h2 : t.type = some "BUY") (h3 : 0 < txCost t) :
    p.cash.getD 0 + txCost t = txCost t
    ∧ txCost t / (p.cash.getD 0 + txCost t) = 1
    ∧ (analyze_risk p t md).countP allInPred = 1 := by
  have hc : p.cash.getD 0 = 0 := by
    rw [h1]
    rfl
  have heq : p.cash.getD 0 + txCost t = txCost t := by
    rw [hc, zero_add]
  have hr : txCost t / (p.cash.getD 0 + txCost t) = 1 := by
    rw [heq]
    exact div_self (ne_of_gt h3)
  refine ⟨heq, hr, ?_⟩
  rw [analyze_risk_allin_countP]
  rw [if_pos ⟨h2, by rw [heq]; exact h3, by rw [hr]; norm_num⟩]

/-- C10 witness: cash absent, BUY of 2 × 5 = 10 > 0: the ratio is 1 and
the all-in alert fires. -/
theorem allin_alert_missing_cash_witness :
    ((⟨some "p1", none, []⟩ : Portafolio).cash = none
      ∧ (⟨none, some "BTC", some "BUY", some 5, some 2⟩ : Transaction).type = some "BUY"
      ∧ 0 < txCost ⟨none, some "BTC", some "BUY", some 5, some 2⟩)
    ∧ ((⟨some "p1", none, []⟩ : Portafolio).cash.getD 0
          + txCost ⟨none, some "BTC", some "BUY", some 5, some 2⟩
        = txCost ⟨none, some "BTC", some "BUY", some 5, some 2⟩
      ∧ txCost ⟨none, some "BTC", some "BUY", some 5, some 2⟩
          / ((⟨some "p1", none, []⟩ : Portafolio).cash.getD 0
            + txCost ⟨none, some "BTC", some "BUY", some 5, some 2⟩) = 1
      ∧ (analyze_risk ⟨some "p1", none, []⟩
          ⟨none, some "BTC", some "BUY", some 5, some 2⟩ []).countP allInPred = 1) :=
  ⟨⟨rfl, rfl, by norm_num [txCost]⟩,
    allin_alert_missing_cash ⟨some "p1", none, []⟩ ⟨none, some "BTC", some "BUY", some 5, some 2⟩
      [] rfl rfl (by norm_num [txCost])⟩

end CriptoActivos
